import Mathlib

/-!
Verification development for the `split` document-ingestion service
(`src/ingest.py`).  The service accepts an uploaded file, extracts its
text, and splits it into token-bounded chunks.  External collaborators
(text extraction, tokenization, the recursive splitter, MIME sniffing,
gzip decompression) are passed as function parameters; the original
logic of `ingest.py` (`is_gz_file`, `count_tokens`, `load`,
`get_doc_id`, `split`, the `/ingest` handler `load_split_count`) is
embedded as executable Lean definitions.  MD5 is implemented in full
because `get_doc_id` truncates an MD5 hex digest, and the source uses a
process-global `hashlib.md5()` accumulator whose statefulness matters.
-/

namespace Ingest

/-! ## MD5 (RFC 1321), over byte lists, words as `Nat` mod 2^32 -/

/-- Per-round left-rotation amounts of MD5. -/
def md5_s : List Nat :=
  [7, 12, 17, 22, 7, 12, 17, 22, 7, 12, 17, 22, 7, 12, 17, 22,
   5, 9, 14, 20, 5, 9, 14, 20, 5, 9, 14, 20, 5, 9, 14, 20,
   4, 11, 16, 23, 4, 11, 16, 23, 4, 11, 16, 23, 4, 11, 16, 23,
   6, 10, 15, 21, 6, 10, 15, 21, 6, 10, 15, 21, 6, 10, 15, 21]

/-- Per-round sine-derived constants of MD5. -/
def md5_K : List Nat :=
  [0xd76aa478, 0xe8c7b756, 0x242070db, 0xc1bdceee,
   0xf57c0faf, 0x4787c62a, 0xa8304613, 0xfd469501,
   0x698098d8, 0x8b44f7af, 0xffff5bb1, 0x895cd7be,
   0x6b901122, 0xfd987193, 0xa679438e, 0x49b40821,
   0xf61e2562, 0xc040b340, 0x265e5a51, 0xe9b6c7aa,
   0xd62f105d, 0x02441453, 0xd8a1e681, 0xe7d3fbc8,
   0x21e1cde6, 0xc33707d6, 0xf4d50d87, 0x455a14ed,
   0xa9e3e905, 0xfcefa3f8, 0x676f02d9, 0x8d2a4c8a,
   0xfffa3942, 0x8771f681, 0x6d9d6122, 0xfde5380c,
   0xa4beea44, 0x4bdecfa9, 0xf6bb4b60, 0xbebfbc70,
   0x289b7ec6, 0xeaa127fa, 0xd4ef3085, 0x04881d05,
   0xd9d4d039, 0xe6db99e5, 0x1fa27cf8, 0xc4ac5665,
   0xf4292244, 0x432aff97, 0xab9423a7, 0xfc93a039,
   0x655b59c3, 0x8f0ccc92, 0xffeff47d, 0x85845dd1,
   0x6fa87e4f, 0xfe2ce6e0, 0xa3014314, 0x4e0811a1,
   0xf7537e82, 0xbd3af235, 0x2ad7d2bb, 0xeb86d391]

/-- 32-bit left rotation on a word `a < 2^32`. -/
def rotl32 (a n : Nat) : Nat :=
  ((a <<< n) % 4294967296) ||| (a >>> (32 - n))

/-- Bitwise complement of a 32-bit word. -/
def not32 (a : Nat) : Nat := a ^^^ 0xffffffff

/-- One MD5 round: `i` is the round index, `M` the 16 message words. -/
def md5_round (M : List Nat) (st : Nat × Nat × Nat × Nat) (i : Nat) :
    Nat × Nat × Nat × Nat :=
  let a := st.1
  let b := st.2.1
  let c := st.2.2.1
  let d := st.2.2.2
  let fg : Nat × Nat :=
    if i < 16 then ((b &&& c) ||| (not32 b &&& d), i)
    else if i < 32 then ((d &&& b) ||| (not32 d &&& c), (5 * i + 1) % 16)
    else if i < 48 then (b ^^^ c ^^^ d, (3 * i + 5) % 16)
    else (c ^^^ (b ||| not32 d), (7 * i) % 16)
  let f := (fg.1 + a + md5_K.getD i 0 + M.getD fg.2 0) % 4294967296
  (d, (b + rotl32 f (md5_s.getD i 0)) % 4294967296, b, c)

/-- Process one 512-bit block (given as 16 words) into the running state. -/
def md5_block (st : Nat × Nat × Nat × Nat) (M : List Nat) :
    Nat × Nat × Nat × Nat :=
  let r := (List.range 64).foldl (md5_round M) st
  ((st.1 + r.1) % 4294967296, (st.2.1 + r.2.1) % 4294967296,
   (st.2.2.1 + r.2.2.1) % 4294967296, (st.2.2.2 + r.2.2.2) % 4294967296)

/-- Group a byte list into little-endian 32-bit words. -/
def bytesToWords : List Nat → List Nat
  | b0 :: b1 :: b2 :: b3 :: rest =>
      (b0 + b1 * 256 + b2 * 65536 + b3 * 16777216) :: bytesToWords rest
  | _ => []

/-- Split a byte list into 64-byte blocks. -/
def toBlocks (l : List Nat) : List (List Nat) :=
  (List.range ((l.length + 63) / 64)).map (fun i => (l.drop (64 * i)).take 64)

/-- MD5 padding: append `0x80`, zero bytes to 56 mod 64, then the
bit-length as 8 little-endian bytes. -/
def md5_pad (msg : List Nat) : List Nat :=
  msg ++ [0x80] ++
    List.replicate ((120 - (msg.length + 1) % 64) % 64) 0 ++
    (List.range 8).map (fun i => ((msg.length * 8) >>> (8 * i)) % 256)

/-- Little-endian bytes of one 32-bit word. -/
def wordBytesLE (w : Nat) : List Nat :=
  [w % 256, (w >>> 8) % 256, (w >>> 16) % 256, (w >>> 24) % 256]

/-- Lowercase hex character for a nibble. -/
def hexChar (n : Nat) : Char :=
  if n < 10 then Char.ofNat (48 + n) else Char.ofNat (87 + n)

/-- Two lowercase hex characters of one byte. -/
def byteHex (b : Nat) : List Char := [hexChar (b / 16), hexChar (b % 16)]

/-- The full MD5 hex digest (32 lowercase hex characters) of a byte list,
mirroring Python `hashlib.md5(bytes).hexdigest()`. -/
def md5_hexdigest (msg : List Nat) : String :=
  let st := (md5_pad msg |> toBlocks).foldl
    (fun s blk => md5_block s (bytesToWords blk))
    (0x67452301, 0xefcdab89, 0x98badcfe, 0x10325476)
  ⟨(([st.1, st.2.1, st.2.2.1, st.2.2.2].flatMap wordBytesLE).flatMap byteHex)⟩

/-- UTF-8 encoding of one character, as a byte list. -/
def utf8Char (c : Char) : List Nat :=
  let n := c.toNat
  if n < 0x80 then [n]
  else if n < 0x800 then [0xC0 + n / 64, 0x80 + n % 64]
  else if n < 0x10000 then
    [0xE0 + n / 4096, 0x80 + (n / 64) % 64, 0x80 + n % 64]
  else
    [0xF0 + n / 262144, 0x80 + (n / 4096) % 64,
     0x80 + (n / 64) % 64, 0x80 + n % 64]

/-- UTF-8 encoding of a string, mirroring Python `str.encode`. -/
def utf8Bytes (s : String) : List Nat := s.data.flatMap utf8Char

/-! ## Decimal rendering of naturals (Python f-string `{i}`) -/

/-- Little-endian decimal digits of `n`, with explicit fuel so the
definition reduces by kernel computation; `natDigitsRev` instantiates the
fuel with `n` itself, which suffices since `n / 10 < n` for `n > 0`. -/
def natDigitsRevAux : Nat → Nat → List Nat
  | 0, _ => []
  | _, 0 => []
  | fuel + 1, n + 1 => (n + 1) % 10 :: natDigitsRevAux fuel ((n + 1) / 10)

/-- Little-endian decimal digits of a positive `n` (empty for `0`). -/
def natDigitsRev (n : Nat) : List Nat := natDigitsRevAux n n

/-- The decimal representation of a natural number, as produced by
Python string interpolation `f'{i}'`. -/
def natRepr (n : Nat) : String :=
  if n = 0 then "0" else ⟨(natDigitsRev n).reverse.map Nat.digitChar⟩

/-- Numeric value of a decimal string; left inverse of `natRepr`. -/
def natReprVal (s : String) : Nat :=
  s.data.foldl (fun acc c => acc * 10 + (c.toNat - 48)) 0

/-- Numeric value of a little-endian digit list. -/
def digitsVal (l : List Nat) : Nat :=
  l.foldr (fun d acc => acc * 10 + d) 0

/-! ## Data model of `ingest.py`

`Doc` stands for the objects produced by the external
`UnstructuredFileLoader`: the handler reads exactly two attributes,
`page_content` and `metadata['source']`. -/

/-- An extracted document as consumed by the handler: its text and the
`source` metadata entry (the path the loader read from). -/
structure Doc where
  page_content : String
  source : String
deriving Repr, DecidableEq

/-- Mirror of the pydantic `DocumentItem` model: one chunk.  The
`metadata` mapping is the literal `{'id': ...}` association list. -/
structure DocumentItem where
  content : String
  tokens_count : Nat
  metadata : List (String × String)
deriving Repr, DecidableEq

/-- Mirror of the pydantic `Document` response model. -/
structure Document where
  content : Option String
  tokens_count : Nat
  mime_type : String
  items : List DocumentItem
deriving Repr, DecidableEq

/-- Configuration read from the environment at startup: the split
threshold and overlap (`CHUNK_SIZE`, `CHUNK_OVERLAP`). -/
structure Config where
  chunk_size : Nat
  chunk_overlap : Nat
deriving Repr, DecidableEq

/-- Errors a request can end in.  Python raises `IndexError` at
`docs[0]` when extraction yields no segments and at `print(texts[1])`
when the splitter yields fewer than two chunks; the embedded error type
deliberately has no extraction-specific constructor because the source
surfaces no such error. -/
inductive IngestError where
  | indexError
deriving Repr, DecidableEq

/-- Decidable equality of request outcomes, so that concrete requests
can be checked by evaluation. -/
instance {ε α : Type} [DecidableEq ε] [DecidableEq α] :
    DecidableEq (Except ε α) := fun a b =>
  match a, b with
  | .error e, .error f =>
      if h : e = f then isTrue (congrArg Except.error h)
      else isFalse fun hh => by injection hh with h2; exact h h2
  | .error _, .ok _ => isFalse fun hh => Except.noConfusion hh
  | .ok _, .error _ => isFalse fun hh => Except.noConfusion hh
  | .ok x, .ok y =>
      if h : x = y then isTrue (congrArg Except.ok h)
      else isFalse fun hh => by injection hh with h2; exact h h2

/-! ## Embedded source functions -/

/-- `is_gz_file`: read the first two bytes of the file and compare them
with the gzip magic number `b'\x1f\x8b'`.  A file shorter than two
bytes yields a shorter byte string, exactly as Python `f.read(2)`. -/
def is_gz_file (content : List Nat) : Bool :=
  content.take 2 = [0x1f, 0x8b]

/-- `count_tokens`: length of the tokenizer encoding of the text.  The
tokenizer (`GPT2TokenizerFast.encode`) is external and passed as the
function `enc`. -/
def count_tokens (enc : String → List Nat) (text : String) : Nat :=
  (enc text).length

/-- `load`: if the uploaded bytes are gzip-compressed, decompress them
first (external `gzip`, parameter `gunzip`), then run the external
extraction (`UnstructuredFileLoader.load`, parameter `extract`) and MIME
sniffing (`magic.from_file`, parameter `getMime`) on the same bytes. -/
def load (gunzip : List Nat → List Nat) (extract : List Nat → List Doc)
    (getMime : List Nat → String) (content : List Nat) :
    List Doc × String :=
  if is_gz_file content then
    let d := gunzip content
    (extract d, getMime d)
  else
    (extract content, getMime content)

/-- `get_doc_id`: feed the UTF-8 bytes of `doc.metadata['source']` into
the PROCESS-GLOBAL `hashlib.md5()` accumulator and return the first 12
hex characters of the resulting digest.  The accumulator state is the
byte list already hashed; Python's `md5.update` appends to it and
`hexdigest` reads it non-destructively, so the call returns the
truncated digest together with the new accumulator state. -/
def get_doc_id (st : List Nat) (source : String) : String × List Nat :=
  let st2 := st ++ utf8Bytes source
  ((md5_hexdigest st2).take 12, st2)

/-- The `for i, text in enumerate(texts)` loop body of the handler:
build one `DocumentItem` per chunk, with id `f'{id}-{i}'`. -/
def mkItems (enc : String → List Nat) (id : String) :
    Nat → List String → List DocumentItem
  | _, [] => []
  | i, t :: ts =>
      { content := t, tokens_count := count_tokens enc t,
        metadata := [("id", id ++ "-" ++ natRepr i)] } :: mkItems enc id (i + 1) ts

/-- The body of the `/ingest` handler after `load` has produced the
extracted documents and the MIME type: `doc = docs[0]`, the token-count
threshold decision, the `split`-and-enumerate branch (including the
source's unconditional `print(texts[1])`, which indexes the second
chunk), and construction of the response `Document`.  `splitter` is the
external `RecursiveCharacterTextSplitter.split_text` as configured in
`split`; `st` is the global MD5 accumulator state. -/
def handle_doc (cfg : Config) (enc : String → List Nat)
    (splitter : String → List String) (st : List Nat)
    (docs : List Doc) (mime_type : String) :
    Except IngestError (Document × List Nat) :=
  match docs.head? with
  | none => .error .indexError
  | some doc =>
    let doc_tokens_count := count_tokens enc doc.page_content
    if doc_tokens_count > cfg.chunk_size then
      let texts := splitter doc.page_content
      match texts[1]? with
      | none => .error .indexError
      | some _ =>
        let r := get_doc_id st doc.source
        .ok ({ content := if mime_type ≠ "text/plain" then some doc.page_content else none,
               tokens_count := doc_tokens_count,
               mime_type := mime_type,
               items := mkItems enc r.fst 0 texts }, r.snd)
    else
      .ok ({ content := if mime_type ≠ "text/plain" then some doc.page_content else none,
             tokens_count := doc_tokens_count,
             mime_type := mime_type,
             items := [] }, st)

/-- `load_split_count`, the `/ingest` handler: write the upload to a
temporary file (`content` is its byte content), call `load`, then
process the result with the chunking logic of `handle_doc`. -/
def load_split_count (cfg : Config) (enc : String → List Nat)
    (splitter : String → List String)
    (gunzip : List Nat → List Nat) (extract : List Nat → List Doc)
    (getMime : List Nat → String) (st : List Nat) (content : List Nat) :
    Except IngestError (Document × List Nat) :=
  let r := load gunzip extract getMime content
  handle_doc cfg enc splitter st r.fst r.snd

/-! ## Spec-modelled external collaborators

The tokenizer (`GPT2TokenizerFast`) and the recursive splitter
(`RecursiveCharacterTextSplitter`) are external libraries, not code of
this repository, so the properties that depend on their behaviour are
settled against executable models built from the specification's
contracts for them. -/

/-- Modelled from the spec: the fixed, pre-loaded subword tokenizer
(§4.3, external `GPT2TokenizerFast.encode`) is missing from the source
tree; it is modelled as the deterministic encoding in which each
character is one token, which satisfies the stated contract (a
deterministic, non-negative count; empty text encodes to zero
tokens). -/
def modelEncode (s : String) : List Nat := s.data.map Char.toNat

/-- Fuel-indexed core of the modelled splitter: emit windows of at most
`k` tokens advancing by `k - o` tokens, so `o` tokens are repeated at
each boundary.  The fuel makes the recursion structural; calling it
with fuel `ts.length` is exact because each step drops at least one
token when `o < k`. -/
def splitTokensAux (k o : Nat) : Nat → List Char → List (List Char)
  | 0, ts => [ts]
  | fuel + 1, ts =>
      if ts.length ≤ k ∨ k ≤ o then [ts]
      else ts.take k :: splitTokensAux k o fuel (ts.drop (k - o))

/-- Modelled from the spec: the external
`RecursiveCharacterTextSplitter.split_text` configured in `split` with
the same tokenizer, `chunk_size` and `chunk_overlap` (§4.2) is missing
from the source tree; it is modelled over `modelEncode`'s tokens
(characters) as the windowed splitter whose chunks carry at most
`chunk_size` tokens and repeat `chunk_overlap` tokens at adjacent
boundaries. -/
def modelSplit (cfg : Config) (s : String) : List String :=
  (splitTokensAux cfg.chunk_size cfg.chunk_overlap s.data.length s.data).map
    fun l => ⟨l⟩

/-! ## Helper lemmas: decimal representation -/

/-- The digit-list value function inverts the fuel-indexed digit
extraction whenever the fuel dominates the number. -/
theorem digitsVal_natDigitsRevAux :
    ∀ (fuel n : Nat), n ≤ fuel → digitsVal (natDigitsRevAux fuel n) = n
  | 0, 0, _ => rfl
  | 0, n + 1, h => absurd h (Nat.not_succ_le_zero n)
  | _fuel + 1, 0, _ => rfl
  | fuel + 1, n + 1, h => by
      have hlt : (n + 1) / 10 < n + 1 := Nat.div_lt_self (Nat.succ_pos n) (by omega)
      have hle : (n + 1) / 10 ≤ fuel := by omega
      have ih := digitsVal_natDigitsRevAux fuel ((n + 1) / 10) hle
      show digitsVal ((n + 1) % 10 :: natDigitsRevAux fuel ((n + 1) / 10)) = n + 1
      simp only [digitsVal, List.foldr] at ih ⊢
      omega

/-- Every digit produced by the extraction is a decimal digit. -/
theorem natDigitsRevAux_lt_ten :
    ∀ (fuel n d : Nat), d ∈ natDigitsRevAux fuel n → d < 10
  | 0, n, d, h => by cases n <;> exact absurd h (List.not_mem_nil d)
  | _fuel + 1, 0, d, h => absurd h (List.not_mem_nil d)
  | fuel + 1, n + 1, d, h => by
      rcases List.mem_cons.mp h with h | h
      · omega
      · exact natDigitsRevAux_lt_ten fuel ((n + 1) / 10) d h

/-- Character code of a decimal digit character. -/
theorem digitChar_toNat (d : Nat) (h : d < 10) :
    (Nat.digitChar d).toNat = 48 + d := by
  interval_cases d <;> decide

/-- Folding the digit-character decoding over a list of decimal digits
agrees with folding the digits themselves. -/
theorem foldl_digitChar :
    ∀ (l : List Nat), (∀ d ∈ l, d < 10) → ∀ acc : Nat,
      l.foldl (fun acc d => acc * 10 + ((Nat.digitChar d).toNat - 48)) acc =
      l.foldl (fun acc d => acc * 10 + d) acc
  | [], _, _ => rfl
  | d :: l, hl, acc => by
      have hd : d < 10 := hl d (List.mem_cons_self d l)
      simp only [List.foldl]
      rw [digitChar_toNat d hd, foldl_digitChar l (fun x hx => hl x (List.mem_cons_of_mem d hx))]
      congr 1
      omega

/-- `natReprVal` inverts `natRepr`. -/
theorem natReprVal_natRepr (n : Nat) : natReprVal (natRepr n) = n := by
  by_cases h : n = 0
  · subst h; decide
  · show natReprVal (if n = 0 then "0" else ⟨(natDigitsRev n).reverse.map Nat.digitChar⟩) = n
    rw [if_neg h]
    show ((natDigitsRev n).reverse.map Nat.digitChar).foldl
      (fun acc c => acc * 10 + (c.toNat - 48)) 0 = n
    simp only [natDigitsRev]
    rw [List.foldl_map]
    rw [foldl_digitChar _ (fun d hd =>
      natDigitsRevAux_lt_ten n n d (List.mem_reverse.mp hd)) 0]
    rw [List.foldl_reverse]
    exact digitsVal_natDigitsRevAux n n le_rfl

/-- Decimal rendering is injective. -/
theorem natRepr_injective : Function.Injective natRepr :=
  Function.LeftInverse.injective natReprVal_natRepr

/-- The decimal suffix of an id string determines the index. -/
theorem append_natRepr_inj (p : String) {i j : Nat}
    (h : p ++ natRepr i = p ++ natRepr j) : i = j := by
  apply natRepr_injective
  apply String.ext
  have h2 := congrArg String.data h
  rw [String.data_append, String.data_append] at h2
  exact List.append_cancel_left h2

/-! ## Helper lemmas: the enumeration loop -/

/-- The enumeration loop yields one item per chunk. -/
theorem mkItems_length (enc : String → List Nat) (id : String) :
    ∀ (i : Nat) (ts : List String), (mkItems enc id i ts).length = ts.length
  | _, [] => rfl
  | i, _ :: ts => by
      simp only [mkItems, List.length_cons, mkItems_length enc id (i + 1) ts]

/-- Item `j` of the enumeration loop started at `i` is chunk `j` with
id suffix `i + j`. -/
theorem mkItems_getElem? (enc : String → List Nat) (id : String) :
    ∀ (ts : List String) (i j : Nat),
      (mkItems enc id i ts)[j]? = ts[j]?.map (fun t =>
        { content := t, tokens_count := count_tokens enc t,
          metadata := [("id", id ++ "-" ++ natRepr (i + j))] })
  | [], i, j => by simp [mkItems]
  | t :: ts, i, 0 => by simp [mkItems]
  | t :: ts, i, j + 1 => by
      have harith : i + 1 + j = i + (j + 1) := by omega
      simp only [mkItems, List.getElem?_cons_succ,
        mkItems_getElem? enc id ts (i + 1) j, harith]

/-- The contents of the produced items are the chunks, in order. -/
theorem mkItems_map_content (enc : String → List Nat) (id : String) :
    ∀ (i : Nat) (ts : List String),
      (mkItems enc id i ts).map (fun it => it.content) = ts
  | _, [] => rfl
  | i, t :: ts => by
      simp only [mkItems, List.map_cons, mkItems_map_content enc id (i + 1) ts]

/-- Every produced item carries a chunk as content, with its token
count measured by the same counting function. -/
theorem mkItems_mem (enc : String → List Nat) (id : String) :
    ∀ (i : Nat) (ts : List String) (it : DocumentItem),
      it ∈ mkItems enc id i ts →
      it.content ∈ ts ∧ it.tokens_count = count_tokens enc it.content
  | _, [], it, h => absurd h (List.not_mem_nil it)
  | i, t :: ts, it, h => by
      rcases List.mem_cons.mp h with h | h
      · subst h
        exact ⟨List.mem_cons_self t ts, rfl⟩
      · obtain ⟨h1, h2⟩ := mkItems_mem enc id (i + 1) ts it h
        exact ⟨List.mem_cons_of_mem t h1, h2⟩

/-! ## Helper lemmas: the modelled splitter -/

/-- With enough fuel and a positive stride, every emitted window holds
at most `k` tokens. -/
theorem splitTokensAux_length_le (k o : Nat) (ho : o < k) :
    ∀ (fuel : Nat) (ts : List Char), ts.length ≤ fuel →
      ∀ c ∈ splitTokensAux k o fuel ts, c.length ≤ k
  | 0, ts, hf, c, hc => by
      have hts : ts = [] := List.eq_nil_of_length_eq_zero (by omega)
      subst hts
      have hc2 : c = [] := by simpa [splitTokensAux] using hc
      subst hc2
      simp
  | fuel + 1, ts, hf, c, hc => by
      simp only [splitTokensAux] at hc
      split at hc
      case isTrue hcond =>
        have hle : ts.length ≤ k := by
          rcases hcond with h | h
          · exact h
          · omega
        have hc2 : c = ts := by simpa using hc
        subst hc2
        exact hle
      case isFalse hcond =>
        push_neg at hcond
        obtain ⟨h1, _⟩ := hcond
        rcases List.mem_cons.mp hc with hc2 | hc2
        · subst hc2
          simp [List.length_take]
        · exact splitTokensAux_length_le k o ho fuel (ts.drop (k - o))
            (by simp only [List.length_drop]; omega) c hc2

/-- The first window of the splitter starts with the first `o` tokens
of the text being split. -/
theorem splitTokensAux_head_take (k o : Nat) (ho : o ≤ k) :
    ∀ (fuel : Nat) (ts : List Char) (c : List Char),
      (splitTokensAux k o fuel ts).head? = some c → c.take o = ts.take o
  | 0, ts, c, h => by
      have hc : ts = c := by simpa [splitTokensAux] using h
      subst hc
      rfl
  | fuel + 1, ts, c, h => by
      simp only [splitTokensAux] at h
      split at h
      · have hc : ts = c := by simpa using h
        subst hc
        rfl
      · have hc : ts.take k = c := by simpa using h
        subst hc
        rw [List.take_take]
        congr 1
        exact inf_eq_left.mpr ho

/-- Adjacent windows of the splitter overlap in exactly the configured
number of tokens: the next window starts with the last `o` tokens of
the previous one. -/
theorem splitTokensAux_chain (k o : Nat) (ho : o < k) :
    ∀ (fuel : Nat) (ts : List Char), ts.length ≤ fuel →
      List.Chain' (fun a b => b.take o = a.drop (a.length - o))
        (splitTokensAux k o fuel ts)
  | 0, ts, _ => List.chain'_singleton ts
  | fuel + 1, ts, hf => by
      simp only [splitTokensAux]
      split
      · exact List.chain'_singleton ts
      case isFalse hcond =>
        push_neg at hcond
        obtain ⟨h1, h2⟩ := hcond
        refine List.chain'_cons'.mpr ⟨?_, splitTokensAux_chain k o ho fuel _
          (by simp only [List.length_drop]; omega)⟩
        intro c hc
        rw [Option.mem_def] at hc
        have hhead := splitTokensAux_head_take k o (le_of_lt ho) fuel
          (ts.drop (k - o)) c hc
        have hlen : (ts.take k).length = k := by
          rw [List.length_take]
          exact inf_eq_left.mpr (le_of_lt h1)
        rw [hlen, List.drop_take]
        have harith : k - (k - o) = o := by omega
        rw [harith]
        exact hhead

/-! ## Helper lemma: inversion of the handler -/

/-- Unfolding equation of the handler once the first extracted document
is known: the threshold decision, the `texts[1]` access and the
response construction, with the `let` bindings of the source spelled
out. -/
theorem handle_doc_some (cfg : Config) (enc : String → List Nat)
    (sp : String → List String) (st : List Nat) (docs : List Doc)
    (mime : String) (doc : Doc) (hd : docs.head? = some doc) :
    handle_doc cfg enc sp st docs mime =
      (if count_tokens enc doc.page_content > cfg.chunk_size then
        match (sp doc.page_content)[1]? with
        | none => .error .indexError
        | some _ =>
          .ok ({ content := if mime ≠ "text/plain" then some doc.page_content else none,
                 tokens_count := count_tokens enc doc.page_content,
                 mime_type := mime,
                 items := mkItems enc (get_doc_id st doc.source).fst 0
                   (sp doc.page_content) },
               (get_doc_id st doc.source).snd)
      else
        .ok ({ content := if mime ≠ "text/plain" then some doc.page_content else none,
               tokens_count := count_tokens enc doc.page_content,
               mime_type := mime,
               items := [] }, st)) := by
  unfold handle_doc
  rw [hd]

/-- Inversion principle for a successful `/ingest` request: the first
extracted document exists, the response fields are as constructed, and
either the no-split branch was taken (token count at or below the
threshold, no items, untouched hash accumulator) or the split branch
was taken (token count above the threshold, at least two chunks, items
enumerated from the splitter output, accumulator advanced by
`get_doc_id`). -/
theorem handle_doc_ok_inv {cfg : Config} {enc : String → List Nat}
    {sp : String → List String} {st : List Nat} {docs : List Doc}
    {mime : String} {d : Document} {st2 : List Nat}
    (hok : handle_doc cfg enc sp st docs mime = .ok (d, st2)) :
    ∃ doc, docs.head? = some doc ∧
      d.tokens_count = count_tokens enc doc.page_content ∧
      d.mime_type = mime ∧
      d.content = (if mime ≠ "text/plain" then some doc.page_content else none) ∧
      ((count_tokens enc doc.page_content ≤ cfg.chunk_size ∧ d.items = [] ∧ st2 = st) ∨
       (cfg.chunk_size < count_tokens enc doc.page_content ∧
        2 ≤ (sp doc.page_content).length ∧
        d.items = mkItems enc (get_doc_id st doc.source).fst 0 (sp doc.page_content) ∧
        st2 = (get_doc_id st doc.source).snd)) := by
  cases hd : docs.head? with
  | none =>
    unfold handle_doc at hok
    rw [hd] at hok
    cases hok
  | some doc =>
    rw [handle_doc_some cfg enc sp st docs mime doc hd] at hok
    refine ⟨doc, rfl, ?_⟩
    by_cases hgt : cfg.chunk_size < count_tokens enc doc.page_content
    · rw [if_pos hgt] at hok
      cases ht : (sp doc.page_content)[1]? with
      | none => rw [ht] at hok; cases hok
      | some t =>
        rw [ht] at hok
        injection hok with h
        have h1 := congrArg Prod.fst h
        have h2 := congrArg Prod.snd h
        simp only at h1 h2
        subst h1
        subst h2
        obtain ⟨hlt, -⟩ := List.getElem?_eq_some.mp ht
        exact ⟨rfl, rfl, rfl, Or.inr ⟨hgt, by omega, rfl, rfl⟩⟩
    · rw [if_neg hgt] at hok
      injection hok with h
      have h1 := congrArg Prod.fst h
      have h2 := congrArg Prod.snd h
      simp only at h1 h2
      subst h1
      subst h2
      exact ⟨rfl, rfl, rfl, Or.inl ⟨Nat.le_of_not_lt hgt, rfl, rfl⟩⟩

/-! ## Claim theorems -/

set_option maxRecDepth 100000

/-- Claim C1: the claim asserts that `get_doc_id` is a pure function of
the source path string, returning the first 12 hex characters of the
MD5 of that string alone, identically on repeated calls.  The code
violates this: it updates one PROCESS-GLOBAL `hashlib.md5()`
accumulator, so the second derivation for the same path `"a"` hashes
`b"aa"` and returns a different id than the first call. -/
theorem get_doc_id_repeats_differ :
    (get_doc_id [] "a").fst = "0cc175b9c0f1" ∧
    (get_doc_id ((get_doc_id [] "a").snd) "a").fst = "4124bc0a9335" ∧
    (get_doc_id ((get_doc_id [] "a").snd) "a").fst ≠ (get_doc_id [] "a").fst :=
  ⟨by decide, by decide, by decide⟩

/-- Claim C2: the claim asserts that an upload whose extraction yields
zero text segments surfaces a distinct extraction-failure error.  The
code instead crashes with an index error: with an extractor returning
no segments, `docs[0]` raises `IndexError` for every request, so the
handler result is the index error, never a distinct extraction
error. -/
theorem ingest_empty_extraction_index_error (cfg : Config)
    (enc : String → List Nat) (sp : String → List String)
    (gunzip : List Nat → List Nat) (getMime : List Nat → String)
    (st : List Nat) (content : List Nat) :
    load_split_count cfg enc sp gunzip (fun _ => []) getMime st content =
      .error .indexError := by
  have hfst : (load gunzip (fun _ => ([] : List Doc)) getMime content).fst = [] := by
    unfold load
    split <;> rfl
  show handle_doc cfg enc sp st
      (load gunzip (fun _ => ([] : List Doc)) getMime content).fst
      (load gunzip (fun _ => ([] : List Doc)) getMime content).snd =
    .error .indexError
  rw [hfst]
  rfl

/-- Claim C3: when the extracted text's token count is at most
`chunk_size`, the handler does not split: the response has an empty
item list and document-level token count `count_tokens(t)`, and the
result does not depend on the splitter (the splitter is never
invoked). -/
theorem chunker_no_split_below_threshold (cfg : Config)
    (enc : String → List Nat) (sp : String → List String) (st : List Nat)
    (docs : List Doc) (mime : String) (doc : Doc)
    (hd : docs.head? = some doc)
    (hle : count_tokens enc doc.page_content ≤ cfg.chunk_size) :
    handle_doc cfg enc sp st docs mime =
      .ok ({ content := if mime ≠ "text/plain" then some doc.page_content else none,
             tokens_count := count_tokens enc doc.page_content,
             mime_type := mime, items := [] }, st) ∧
    ∀ sp2 : String → List String,
      handle_doc cfg enc sp st docs mime = handle_doc cfg enc sp2 st docs mime := by
  have hne := Nat.not_lt.mpr hle
  constructor
  · rw [handle_doc_some cfg enc sp st docs mime doc hd, if_neg hne]
  · intro sp2
    rw [handle_doc_some cfg enc sp st docs mime doc hd,
        handle_doc_some cfg enc sp2 st docs mime doc hd, if_neg hne, if_neg hne]

/-- Witness for C3: a two-token document with `chunk_size = 5` comes
back unsplit, with an empty item list and token count 2. -/
theorem chunker_no_split_below_threshold_witness :
    (([⟨"hi", "s"⟩] : List Doc).head? = some ⟨"hi", "s"⟩ ∧
     count_tokens modelEncode "hi" ≤ 5) ∧
    handle_doc ⟨5, 0⟩ modelEncode (fun _ => ["x"]) [] [⟨"hi", "s"⟩] "text/plain" =
      .ok ({ content := none, tokens_count := 2, mime_type := "text/plain",
             items := [] }, []) :=
  ⟨⟨by decide, by decide⟩,
   (chunker_no_split_below_threshold ⟨5, 0⟩ modelEncode (fun _ => ["x"]) []
     [⟨"hi", "s"⟩] "text/plain" ⟨"hi", "s"⟩ (by decide) (by decide)).1⟩

/-- Claim C5: in every returned `Document`, the top-level `content`
field is null exactly when the detected MIME type is `text/plain`, and
for any other MIME type it equals the full extracted text. -/
theorem content_null_iff_plain_mime (cfg : Config) (enc : String → List Nat)
    (sp : String → List String) (st : List Nat) (docs : List Doc)
    (mime : String) (d : Document) (st2 : List Nat) (doc : Doc)
    (hd : docs.head? = some doc)
    (hok : handle_doc cfg enc sp st docs mime = .ok (d, st2)) :
    (d.content = none ↔ d.mime_type = "text/plain") ∧
    (d.mime_type ≠ "text/plain" → d.content = some doc.page_content) := by
  obtain ⟨doc2, hd2, -, hmime, hcontent, -⟩ := handle_doc_ok_inv hok
  rw [hd] at hd2
  have hdoc : doc2 = doc := (Option.some.inj hd2).symm
  subst hdoc
  subst hmime
  refine ⟨⟨?_, ?_⟩, ?_⟩
  · intro hnone
    by_contra hm
    rw [if_pos hm] at hcontent
    rw [hcontent] at hnone
    cases hnone
  · intro hm
    rw [hcontent, if_neg (not_not_intro hm)]
  · intro hm
    rw [hcontent, if_pos hm]

/-- Witness for C5: a plain-text request returns `content = none`. -/
theorem content_null_iff_plain_mime_witness :
    (([⟨"hi", "s"⟩] : List Doc).head? = some ⟨"hi", "s"⟩ ∧
     handle_doc ⟨5, 0⟩ modelEncode (fun _ => ["x"]) [] [⟨"hi", "s"⟩] "text/plain" =
       .ok ({ content := none, tokens_count := 2, mime_type := "text/plain",
              items := [] }, [])) ∧
    ((none : Option String) = none ↔
      ({ content := none, tokens_count := 2, mime_type := "text/plain",
         items := [] } : Document).mime_type = "text/plain") :=
  ⟨⟨by decide, by decide⟩,
   (content_null_iff_plain_mime ⟨5, 0⟩ modelEncode (fun _ => ["x"]) []
     [⟨"hi", "s"⟩] "text/plain"
     ({ content := none, tokens_count := 2, mime_type := "text/plain",
        items := [] }) [] ⟨"hi", "s"⟩ (by decide) (by decide)).1⟩

/-- Claim C8: counting tokens on the empty string returns 0 (for the
modelled tokenizer, which encodes empty text to zero tokens), and for
every text and tokenizer the count is a non-negative integer. -/
theorem count_tokens_empty_and_nonneg :
    count_tokens modelEncode "" = 0 ∧
    ∀ (enc : String → List Nat) (t : String), 0 ≤ count_tokens enc t :=
  ⟨rfl, fun _ _ => Nat.zero_le _⟩

/-- Claim C10: a file shorter than two bytes is never detected as gzip
(the two-byte read yields a shorter byte string, which cannot equal the
two-byte gzip magic number), so `load` takes the non-gzip extraction
path on the original bytes. -/
theorem short_file_not_gzip (content : List Nat) (h : content.length < 2)
    (gunzip : List Nat → List Nat) (extract : List Nat → List Doc)
    (getMime : List Nat → String) :
    is_gz_file content = false ∧
    load gunzip extract getMime content = (extract content, getMime content) := by
  have hgz : is_gz_file content = false := by
    cases content with
    | nil => rfl
    | cons a t =>
      cases t with
      | nil => simp [is_gz_file]
      | cons b t2 =>
        simp only [List.length_cons] at h
        omega
  refine ⟨hgz, ?_⟩
  unfold load
  rw [hgz]
  simp

/-- Witness for C10: the one-byte file `0x1f` (first magic byte only)
is not treated as gzip and goes straight to extraction. -/
theorem short_file_not_gzip_witness :
    ([(31 : Nat)].length < 2) ∧ is_gz_file [31] = false ∧
    load (fun l => l) (fun _ => ([] : List Doc)) (fun _ => "text/plain") [31] =
      ([], "text/plain") :=
  ⟨by decide,
   (short_file_not_gzip [31] (by decide) (fun l => l) (fun _ => [])
     (fun _ => "text/plain")).1,
   (short_file_not_gzip [31] (by decide) (fun l => l) (fun _ => [])
     (fun _ => "text/plain")).2⟩

/-- Claim C4: when the extracted text's token count exceeds
`chunk_size` and the splitter is the spec-modelled recursive splitter
over the spec-modelled tokenizer, every produced chunk's token count
(measured by the same `count_tokens`) is at most `chunk_size`, and each
chunk starts with the `chunk_overlap` tokens that end the previous
chunk. -/
theorem chunk_token_bound_and_overlap (cfg : Config) (st : List Nat)
    (docs : List Doc) (mime : String) (d : Document) (st2 : List Nat)
    (doc : Doc)
    (ho : cfg.chunk_overlap < cfg.chunk_size)
    (hd : docs.head? = some doc)
    (hgt : cfg.chunk_size < count_tokens modelEncode doc.page_content)
    (hok : handle_doc cfg modelEncode (modelSplit cfg) st docs mime =
      .ok (d, st2)) :
    (∀ it ∈ d.items, it.tokens_count ≤ cfg.chunk_size) ∧
    List.Chain' (fun a b =>
      (modelEncode b.content).take cfg.chunk_overlap =
      (modelEncode a.content).drop
        ((modelEncode a.content).length - cfg.chunk_overlap)) d.items := by
  obtain ⟨doc2, hd2, -, -, -, hbranch⟩ := handle_doc_ok_inv hok
  rw [hd] at hd2
  rw [(Option.some.inj hd2).symm] at hbranch
  rcases hbranch with ⟨hle, -, -⟩ | ⟨-, -, hitems, -⟩
  · omega
  · constructor
    · intro it hit
      obtain ⟨hmem, htok⟩ := mkItems_mem _ _ _ _ it (hitems ▸ hit)
      simp only [modelSplit, List.mem_map] at hmem
      obtain ⟨l, hl, hcontent⟩ := hmem
      have hlen := splitTokensAux_length_le cfg.chunk_size cfg.chunk_overlap ho
        doc.page_content.data.length doc.page_content.data le_rfl l hl
      rw [htok, ← hcontent]
      show (l.map Char.toNat).length ≤ cfg.chunk_size
      rw [List.length_map]
      exact hlen
    · rw [hitems]
      have hchain := splitTokensAux_chain cfg.chunk_size cfg.chunk_overlap ho
        doc.page_content.data.length doc.page_content.data le_rfl
      have hchain2 : List.Chain' (fun a b : String =>
          (modelEncode b).take cfg.chunk_overlap =
          (modelEncode a).drop
            ((modelEncode a).length - cfg.chunk_overlap))
          (modelSplit cfg doc.page_content) := by
        unfold modelSplit
        rw [List.chain'_map]
        refine hchain.imp ?_
        intro a b hab
        show (b.map Char.toNat).take cfg.chunk_overlap =
          (a.map Char.toNat).drop
            ((a.map Char.toNat).length - cfg.chunk_overlap)
        rw [List.length_map, ← List.map_take, ← List.map_drop, hab]
      rw [← mkItems_map_content modelEncode
        (get_doc_id st doc.source).fst 0 (modelSplit cfg doc.page_content)] at hchain2
      exact (List.chain'_map (fun it : DocumentItem => it.content)).mp hchain2

/-- Witness for C4: a four-token document with `chunk_size = 2`,
`chunk_overlap = 1` is split into three chunks of two tokens each. -/
theorem chunk_token_bound_and_overlap_witness :
    (1 < 2 ∧
     ([⟨"abcd", "s"⟩] : List Doc).head? = some ⟨"abcd", "s"⟩ ∧
     2 < count_tokens modelEncode "abcd" ∧
     handle_doc ⟨2, 1⟩ modelEncode (modelSplit ⟨2, 1⟩) [] [⟨"abcd", "s"⟩]
       "text/html" =
       .ok ({ content := some "abcd", tokens_count := 4,
              mime_type := "text/html",
              items := [{ content := "ab", tokens_count := 2,
                          metadata := [("id", "03c7c0ace395-0")] },
                        { content := "bc", tokens_count := 2,
                          metadata := [("id", "03c7c0ace395-1")] },
                        { content := "cd", tokens_count := 2,
                          metadata := [("id", "03c7c0ace395-2")] }] },
            [115])) ∧
    ∀ it ∈ ({ content := some "abcd", tokens_count := 4,
              mime_type := "text/html",
              items := [{ content := "ab", tokens_count := 2,
                          metadata := [("id", "03c7c0ace395-0")] },
                        { content := "bc", tokens_count := 2,
                          metadata := [("id", "03c7c0ace395-1")] },
                        { content := "cd", tokens_count := 2,
                          metadata := [("id", "03c7c0ace395-2")] }] } : Document).items,
      it.tokens_count ≤ 2 :=
  ⟨⟨by decide, by decide, by decide, by decide⟩,
   (chunk_token_bound_and_overlap ⟨2, 1⟩ [] [⟨"abcd", "s"⟩] "text/html"
     ({ content := some "abcd", tokens_count := 4, mime_type := "text/html",
        items := [{ content := "ab", tokens_count := 2,
                    metadata := [("id", "03c7c0ace395-0")] },
                  { content := "bc", tokens_count := 2,
                    metadata := [("id", "03c7c0ace395-1")] },
                  { content := "cd", tokens_count := 2,
                    metadata := [("id", "03c7c0ace395-2")] }] })
     [115] ⟨"abcd", "s"⟩ (by decide) (by decide) (by decide) (by decide)).1⟩

/-- Claim C6: whenever the document is split, item `j` of the response
is chunk `j` of the splitter's output, in split order, with id
`{document_id}-{j}` where the indices start at 0 and increase by 1. -/
theorem chunk_ids_follow_split_order (cfg : Config)
    (enc : String → List Nat) (sp : String → List String) (st : List Nat)
    (docs : List Doc) (mime : String) (d : Document) (st2 : List Nat)
    (doc : Doc)
    (hd : docs.head? = some doc)
    (hgt : cfg.chunk_size < count_tokens enc doc.page_content)
    (hok : handle_doc cfg enc sp st docs mime = .ok (d, st2)) :
    ∀ j : Nat, d.items[j]? = (sp doc.page_content)[j]?.map (fun t =>
      { content := t, tokens_count := count_tokens enc t,
        metadata := [("id", (get_doc_id st doc.source).fst ++ "-" ++ natRepr j)] }) := by
  obtain ⟨doc2, hd2, -, -, -, hbranch⟩ := handle_doc_ok_inv hok
  rw [hd] at hd2
  rw [(Option.some.inj hd2).symm] at hbranch
  rcases hbranch with ⟨hle, -, -⟩ | ⟨-, -, hitems, -⟩
  · omega
  · intro j
    rw [hitems, mkItems_getElem?]
    simp only [Nat.zero_add]

/-- Witness for C6: in the concrete split response, item 1 is the
second chunk with id suffix `-1`. -/
theorem chunk_ids_follow_split_order_witness :
    (([⟨"abcd", "s"⟩] : List Doc).head? = some ⟨"abcd", "s"⟩ ∧
     2 < count_tokens modelEncode "abcd" ∧
     handle_doc ⟨2, 1⟩ modelEncode (modelSplit ⟨2, 1⟩) [] [⟨"abcd", "s"⟩]
       "text/html" =
       .ok ({ content := some "abcd", tokens_count := 4,
              mime_type := "text/html",
              items := [{ content := "ab", tokens_count := 2,
                          metadata := [("id", "03c7c0ace395-0")] },
                        { content := "bc", tokens_count := 2,
                          metadata := [("id", "03c7c0ace395-1")] },
                        { content := "cd", tokens_count := 2,
                          metadata := [("id", "03c7c0ace395-2")] }] },
            [115])) ∧
    ({ content := some "abcd", tokens_count := 4, mime_type := "text/html",
       items := [{ content := "ab", tokens_count := 2,
                   metadata := [("id", "03c7c0ace395-0")] },
                 { content := "bc", tokens_count := 2,
                   metadata := [("id", "03c7c0ace395-1")] },
                 { content := "cd", tokens_count := 2,
                   metadata := [("id", "03c7c0ace395-2")] }] } : Document).items[1]? =
      (modelSplit ⟨2, 1⟩ "abcd")[1]?.map (fun t =>
        { content := t, tokens_count := count_tokens modelEncode t,
          metadata := [("id", (get_doc_id [] "s").fst ++ "-" ++ natRepr 1)] }) :=
  ⟨⟨by decide, by decide, by decide⟩,
   (chunk_ids_follow_split_order ⟨2, 1⟩ modelEncode (modelSplit ⟨2, 1⟩) []
     [⟨"abcd", "s"⟩] "text/html"
     ({ content := some "abcd", tokens_count := 4, mime_type := "text/html",
        items := [{ content := "ab", tokens_count := 2,
                    metadata := [("id", "03c7c0ace395-0")] },
                  { content := "bc", tokens_count := 2,
                    metadata := [("id", "03c7c0ace395-1")] },
                  { content := "cd", tokens_count := 2,
                    metadata := [("id", "03c7c0ace395-2")] }] })
     [115] ⟨"abcd", "s"⟩ (by decide) (by decide) (by decide)) 1⟩

/-- Claim C7: within one response, chunk ids are pairwise distinct: two
items at different positions carry different `id` metadata values. -/
theorem chunk_ids_pairwise_distinct (cfg : Config)
    (enc : String → List Nat) (sp : String → List String) (st : List Nat)
    (docs : List Doc) (mime : String) (d : Document) (st2 : List Nat)
    (i j : Nat) (a b : DocumentItem)
    (hok : handle_doc cfg enc sp st docs mime = .ok (d, st2))
    (hne : i ≠ j)
    (ha : d.items[i]? = some a) (hb : d.items[j]? = some b) :
    a.metadata.lookup "id" ≠ b.metadata.lookup "id" := by
  obtain ⟨doc, -, -, -, -, hbranch⟩ := handle_doc_ok_inv hok
  rcases hbranch with ⟨-, hitems, -⟩ | ⟨-, -, hitems, -⟩
  · rw [hitems] at ha
    simp at ha
  · rw [hitems, mkItems_getElem?] at ha hb
    obtain ⟨ta, -, hfa⟩ := Option.map_eq_some'.mp ha
    obtain ⟨tb, -, hfb⟩ := Option.map_eq_some'.mp hb
    rw [← hfa, ← hfb]
    simp only [List.lookup, beq_self_eq_true, Nat.zero_add]
    intro heq
    have heq2 := Option.some.inj heq
    exact hne (append_natRepr_inj ((get_doc_id st doc.source).fst ++ "-") heq2)

/-- Witness for C7: in the concrete split response, items 0 and 1 carry
different ids. -/
theorem chunk_ids_pairwise_distinct_witness :
    (handle_doc ⟨2, 1⟩ modelEncode (modelSplit ⟨2, 1⟩) [] [⟨"abcd", "s"⟩]
       "text/html" =
       .ok ({ content := some "abcd", tokens_count := 4,
              mime_type := "text/html",
              items := [{ content := "ab", tokens_count := 2,
                          metadata := [("id", "03c7c0ace395-0")] },
                        { content := "bc", tokens_count := 2,
                          metadata := [("id", "03c7c0ace395-1")] },
                        { content := "cd", tokens_count := 2,
                          metadata := [("id", "03c7c0ace395-2")] }] },
            [115]) ∧
     (0 : Nat) ≠ 1 ∧
     ({ content := some "abcd", tokens_count := 4, mime_type := "text/html",
        items := [{ content := "ab", tokens_count := 2,
                    metadata := [("id", "03c7c0ace395-0")] },
                  { content := "bc", tokens_count := 2,
                    metadata := [("id", "03c7c0ace395-1")] },
                  { content := "cd", tokens_count := 2,
                    metadata := [("id", "03c7c0ace395-2")] }] } : Document).items[0]? =
       some { content := "ab", tokens_count := 2,
              metadata := [("id", "03c7c0ace395-0")] } ∧
     ({ content := some "abcd", tokens_count := 4, mime_type := "text/html",
        items := [{ content := "ab", tokens_count := 2,
                    metadata := [("id", "03c7c0ace395-0")] },
                  { content := "bc", tokens_count := 2,
                    metadata := [("id", "03c7c0ace395-1")] },
                  { content := "cd", tokens_count := 2,
                    metadata := [("id", "03c7c0ace395-2")] }] } : Document).items[1]? =
       some { content := "bc", tokens_count := 2,
              metadata := [("id", "03c7c0ace395-1")] }) ∧
    ({ content := "ab", tokens_count := 2,
       metadata := [("id", "03c7c0ace395-0")] } : DocumentItem).metadata.lookup "id" ≠
    ({ content := "bc", tokens_count := 2,
       metadata := [("id", "03c7c0ace395-1")] } : DocumentItem).metadata.lookup "id" :=
  ⟨⟨by decide, by decide, by decide, by decide⟩,
   chunk_ids_pairwise_distinct ⟨2, 1⟩ modelEncode (modelSplit ⟨2, 1⟩) []
     [⟨"abcd", "s"⟩] "text/html"
     ({ content := some "abcd", tokens_count := 4, mime_type := "text/html",
        items := [{ content := "ab", tokens_count := 2,
                    metadata := [("id", "03c7c0ace395-0")] },
                  { content := "bc", tokens_count := 2,
                    metadata := [("id", "03c7c0ace395-1")] },
                  { content := "cd", tokens_count := 2,
                    metadata := [("id", "03c7c0ace395-2")] }] })
     [115] 0 1
     { content := "ab", tokens_count := 2,
       metadata := [("id", "03c7c0ace395-0")] }
     { content := "bc", tokens_count := 2,
       metadata := [("id", "03c7c0ace395-1")] }
     (by decide) (by decide) (by decide) (by decide)⟩

/-- Claim C9: every successful response has an items list that is
either empty or holds at least two chunks, because the split branch
unconditionally reads the second split chunk (`texts[1]`); a split
yielding exactly one chunk makes the request fail with an index error
instead of producing a one-item response. -/
theorem items_empty_or_at_least_two (cfg : Config)
    (enc : String → List Nat) (sp : String → List String) (st : List Nat)
    (docs : List Doc) (mime : String) :
    (∀ (d : Document) (st2 : List Nat),
      handle_doc cfg enc sp st docs mime = .ok (d, st2) →
      d.items = [] ∨ 2 ≤ d.items.length) ∧
    (∀ (doc : Doc) (t : String), docs.head? = some doc →
      cfg.chunk_size < count_tokens enc doc.page_content →
      sp doc.page_content = [t] →
      handle_doc cfg enc sp st docs mime = .error .indexError) := by
  constructor
  · intro d st2 hok
    obtain ⟨doc, -, -, -, -, hbranch⟩ := handle_doc_ok_inv hok
    rcases hbranch with ⟨-, hitems, -⟩ | ⟨-, hlen, hitems, -⟩
    · exact Or.inl hitems
    · right
      rw [hitems, mkItems_length]
      exact hlen
  · intro doc t hd hgt hsp
    rw [handle_doc_some cfg enc sp st docs mime doc hd, if_pos hgt, hsp]
    rfl

/-- Witness for C9: a splitter yielding exactly one chunk on an
over-threshold document makes the request fail with the index error. -/
theorem items_empty_or_at_least_two_witness :
    (([⟨"ab", "s"⟩] : List Doc).head? = some ⟨"ab", "s"⟩ ∧
     1 < count_tokens modelEncode "ab" ∧
     (fun _ : String => ["ab"]) "ab" = ["ab"]) ∧
    handle_doc ⟨1, 0⟩ modelEncode (fun _ => ["ab"]) [] [⟨"ab", "s"⟩] "x" =
      .error .indexError :=
  ⟨⟨by decide, by decide, rfl⟩,
   (items_empty_or_at_least_two ⟨1, 0⟩ modelEncode (fun _ => ["ab"]) []
     [⟨"ab", "s"⟩] "x").2 ⟨"ab", "s"⟩ "ab" (by decide) (by decide) rfl⟩

end Ingest
